import Mathlib

/-!
Shallow embedding of the m3u-player HTTP server (`server.py`) and proofs about
the party/session store, the chat log, the recording catalog and the byte-range
file serving it implements.

Python dictionaries (`PARTIES`, `MESSAGES`, `RECORDED_FILES`, `ACTIVE_RECORDINGS`)
are modelled as association lists in insertion order; `time.time()` values are
modelled as rationals; Python string primitives used by the server are modelled
as structurally recursive functions over `List Char` so that every definition
evaluates inside the kernel.
-/

/-- Lookup in an association list, modelling Python `d[k]` / `d.get(k)`
(a dict has unique keys, so first match is the match). -/
def alookup {α : Type} (k : String) : List (String × α) → Option α
  | [] => none
  | (k', v) :: rest => if k' = k then some v else alookup k rest

/-- Assignment `d[k] = v`: replaces the entry in place, keeping insertion
order, and appends when the key is absent. -/
def aset {α : Type} (k : String) (v : α) : List (String × α) → List (String × α)
  | [] => [(k, v)]
  | (k', v') :: rest => if k' = k then (k, v) :: rest else (k', v') :: aset k v rest

/-- Deletion `del d[k]` / `d.pop(k, None)`: removes the entry for `k`. -/
def adel {α : Type} (k : String) : List (String × α) → List (String × α)
  | [] => []
  | (k', v') :: rest => if k' = k then rest else (k', v') :: adel k rest

/-- Whether the first list is an initial segment of the second. -/
def listStarts {α : Type} [DecidableEq α] : List α → List α → Bool
  | [], _ => true
  | _ :: _, [] => false
  | p :: ps, c :: cs => p = c && listStarts ps cs

/-- Python `s.startswith(pat)`. -/
def py_startswith (s pat : String) : Bool := listStarts pat.data s.data

/-- Python `s.endswith(pat)`. -/
def py_endswith (s pat : String) : Bool := listStarts pat.data.reverse s.data.reverse

/-- Python slicing `s[:n]`. -/
def py_slice (s : String) (n : Nat) : String := ⟨s.data.take n⟩

/-- Python `s.upper()`. -/
def py_upper (s : String) : String := ⟨s.data.map Char.toUpper⟩

/-- Python `s.lower()`. -/
def py_lower (s : String) : String := ⟨s.data.map Char.toLower⟩

/-- Truthiness of Python `s.strip()`: true iff `s` has a non-whitespace
character. -/
def py_strip_truthy (s : String) : Bool := s.data.any (fun c => !c.isWhitespace)

/-- Python single-character `s.replace(a, b)`. -/
def py_replace_char (s : String) (a b : Char) : String :=
  ⟨s.data.map (fun c => if c = a then b else c)⟩

/-- When `pat` is an initial segment of `l`, the remainder after it. -/
def stripStart {α : Type} [DecidableEq α] : List α → List α → Option (List α)
  | [], l => some l
  | _ :: _, [] => none
  | p :: ps, c :: cs => if p = c then stripStart ps cs else none

/-- Fuel-indexed worker for `py_replace`; each step either copies one element
or consumes a whole (non-empty) pattern occurrence, so `l.length` steps
always suffice. -/
def listReplaceAux {α : Type} [DecidableEq α] (pat rep : List α) : Nat → List α → List α
  | 0, l => l
  | _, [] => []
  | fuel + 1, c :: cs =>
    match stripStart pat (c :: cs) with
    | some rest => rep ++ listReplaceAux pat rep fuel rest
    | none => c :: listReplaceAux pat rep fuel cs

/-- Python `s.replace(pat, rep)` for a non-empty pattern: every
(left-to-right, non-overlapping) occurrence is replaced. -/
def py_replace (s pat rep : String) : String :=
  ⟨listReplaceAux pat.data rep.data s.data.length s.data⟩

/-- Worker for `py_split`. -/
def listSplitChar (sep : Char) : List Char → List (List Char)
  | [] => [[]]
  | c :: cs =>
    if c = sep then [] :: listSplitChar sep cs
    else
      match listSplitChar sep cs with
      | [] => [[c]]
      | h :: t => (c :: h) :: t

/-- Python `s.split(sep)` for a single-character separator (empty pieces
kept, as in Python). -/
def py_split (s : String) (sep : Char) : List String :=
  (listSplitChar sep s.data).map String.mk

/-- Whether a list of characters is a non-empty run of decimal digits. -/
def decDigits (l : List Char) : Bool := !l.isEmpty && l.all (·.isDigit)

/-- Numeric value of a run of decimal digits. -/
def digitsToNat (l : List Char) : Nat := l.foldl (fun acc c => acc * 10 + (c.toNat - 48)) 0

/-- Python `int(s)` on plain decimal strings: an optional sign followed by
one or more digits; `none` models the `ValueError` raised otherwise. -/
def py_int (s : String) : Option Int :=
  match s.data with
  | '-' :: rest => if decDigits rest then some (-(digitsToNat rest : Int)) else none
  | '+' :: rest => if decDigits rest then some ((digitsToNat rest : Int)) else none
  | l => if decDigits l then some ((digitsToNat l : Int)) else none

/-!
Party/session store (`PARTIES`, `MESSAGES`, `get_party` and the party
handlers of `MyHTTPRequestHandler`). Timestamps (`time.time()`) are modelled
as integers: every use in the source is addition, subtraction and order
comparison, which the integer model reflects exactly.
-/

/-- A member entry appended by `handle_party_create` / `handle_party_join`. -/
structure Member where
  username : String
  id : String
  timestamp : Int
deriving DecidableEq, Repr

/-- A `PARTIES` value: `{host, members, channel, playing, currentTime, timestamp}`. -/
structure Party where
  host : String
  members : List Member
  channel : String
  playing : Bool
  currentTime : Int
  timestamp : Int
deriving DecidableEq, Repr

/-- A `MESSAGES` entry: `{username, text, timestamp}`. -/
structure ChatMessage where
  username : String
  text : String
  timestamp : Int
deriving DecidableEq, Repr

/-- The shared mutable party state: `PARTIES` and `MESSAGES`. -/
structure ServerState where
  parties : List (String × Party)
  messages : List (String × List ChatMessage)
deriving DecidableEq, Repr

/-- Embeds `get_party` (server.py:48-58): resolves a code, evicting the party
and its chat log when `now - timestamp > 3600`. Returns the lookup result
together with the possibly-updated store. -/
def get_party (now : Int) (code : String) (st : ServerState) : Option Party × ServerState :=
  match alookup code st.parties with
  | none => (none, st)
  | some party =>
    if now - party.timestamp > 3600 then
      (none, { parties := adel code st.parties, messages := adel code st.messages })
    else
      (some party, st)

/-- Embeds `handle_party_join` (server.py:163-197): appends a member and
refreshes the activity timestamp; 404 when the party is unknown or expired. -/
def handle_party_join (now : Int) (code username : String) (st : ServerState) :
    Nat × ServerState :=
  let code := py_upper code
  let username := py_slice username 50
  match get_party now code st with
  | (none, st') => (404, st')
  | (some party, st') =>
    let member : Member := ⟨username, "member_" ++ toString party.members.length, now⟩
    let party' := { party with members := party.members ++ [member], timestamp := now }
    (200, { st' with parties := aset code party' st'.parties })

/-- Embeds `handle_party_state` (server.py:199-228): a successful read
refreshes the activity timestamp ("keep party alive") and changes nothing
else. -/
def handle_party_state (now : Int) (code : String) (st : ServerState) :
    Nat × ServerState :=
  let code := py_upper code
  match get_party now code st with
  | (none, st') => (404, st')
  | (some party, st') =>
    (200, { st' with parties := aset code { party with timestamp := now } st'.parties })

/-- Embeds `handle_party_messages` (server.py:230-256): refreshes the activity
timestamp and returns the messages with `timestamp > since`; the stored list
is not modified. -/
def handle_party_messages (now since : Int) (code : String) (st : ServerState) :
    Nat × List ChatMessage × ServerState :=
  let code := py_upper code
  match get_party now code st with
  | (none, st') => (404, [], st')
  | (some party, st') =>
    let msgs := (alookup code st'.messages).getD []
    let recent := msgs.filter (fun m => m.timestamp > since)
    (200, recent, { st' with parties := aset code { party with timestamp := now } st'.parties })

/-- The JSON body of a `/party/update` request: each field is present or
absent (`'channel' in data` etc.). -/
structure PartyPatch where
  channel : Option String
  playing : Option Bool
  currentTime : Option Int
deriving DecidableEq, Repr

/-- Embeds `handle_party_update` (server.py:278-311): overwrites exactly the
fields present in the body, then refreshes the activity timestamp. -/
def handle_party_update (now : Int) (code : String) (patch : PartyPatch) (st : ServerState) :
    Nat × ServerState :=
  let code := py_upper code
  match get_party now code st with
  | (none, st') => (404, st')
  | (some party, st') =>
    let party := match patch.channel with | some c => { party with channel := c } | none => party
    let party := match patch.playing with | some b => { party with playing := b } | none => party
    let party :=
      match patch.currentTime with | some t => { party with currentTime := t } | none => party
    let party := { party with timestamp := now }
    (200, { st' with parties := aset code party st'.parties })

/-- `MESSAGE_HISTORY_LIMIT` (server.py:34). -/
def MESSAGE_HISTORY_LIMIT : Nat := 100

/-- Embeds `handle_send_message` (server.py:313-357): truncates the author to
50 and the text to 500 characters, rejects whitespace-only text with 400,
appends the message and keeps only the last `MESSAGE_HISTORY_LIMIT` entries. -/
def handle_send_message (now : Int) (code username text : String) (st : ServerState) :
    Nat × ServerState :=
  let code := py_upper code
  match get_party now code st with
  | (none, st') => (404, st')
  | (some party, st') =>
    let username := py_slice username 50
    let text := py_slice text 500
    if py_strip_truthy text then
      let msgs := (alookup code st'.messages).getD []
      let msgs := msgs ++ [⟨username, text, now⟩]
      let msgs :=
        if msgs.length > MESSAGE_HISTORY_LIMIT then
          msgs.drop (msgs.length - MESSAGE_HISTORY_LIMIT)
        else msgs
      (200, { parties := aset code { party with timestamp := now } st'.parties,
              messages := aset code msgs st'.messages })
    else
      (400, st')

/-!
Recording side: `ACTIVE_RECORDINGS`, `RECORDED_FILES`, the recording handlers
and the byte-range file serving. The recordings directory is modelled as an
association list from filename to file size; actual bytes are irrelevant to
the properties below, only how many are sent.
-/

/-- A `RECORDED_FILES` value: `{channel, size, duration, timestamp}`. -/
structure RecInfo where
  channel : String
  size : Nat
  duration : Int
  timestamp : Int
deriving DecidableEq, Repr

/-- An `ACTIVE_RECORDINGS` value (server.py:39): `{process, channel, url,
startTime}`; the process handle is an external resource and carries no data
relevant to the modelled behaviour. -/
structure ActiveInfo where
  channel : String
  url : String
  startTime : Int
deriving DecidableEq, Repr

/-- The inline filename validation shared by `handle_recording_delete`
(server.py:965) and `handle_recording_play` (server.py:998):
`filename.startswith('rec_') and filename.endswith('.ts')`. -/
def valid_recording_filename (fn : String) : Bool :=
  py_startswith fn "rec_" && py_endswith fn ".ts"

/-- Modelled from the spec: the filename pattern the spec claims is enforced,
`rec_<digits>_<text>.ts` with a non-empty digit run followed by an
underscore. Stated only to compare against `valid_recording_filename`. -/
def spec_rec_pattern (fn : String) : Bool :=
  py_startswith fn "rec_" && py_endswith fn ".ts" &&
    (let mid := ((fn.data.drop 4).dropLast.dropLast).dropLast
     let digits := mid.takeWhile Char.isDigit
     !digits.isEmpty && listStarts ['_'] (mid.drop digits.length))

/-- Result of `handle_recording_delete`: response status, the `success` field
of the JSON body, and the recordings directory and catalog afterwards. -/
structure DeleteResult where
  status : Nat
  success : Bool
  files : List (String × Nat)
  recorded : List (String × RecInfo)
deriving DecidableEq, Repr

/-- Embeds `handle_recording_delete` (server.py:955-989): 400 on a filename
failing the `rec_*.ts` check, before any filesystem access; otherwise unlinks
the file and purges the catalog entry, or reports `File not found` with
status 200. -/
def handle_recording_delete (filename : String) (files : List (String × Nat))
    (recorded : List (String × RecInfo)) : DeleteResult :=
  if !valid_recording_filename filename then
    ⟨400, false, files, recorded⟩
  else
    match alookup filename files with
    | some _ => ⟨200, true, adel filename files, adel filename recorded⟩
    | none => ⟨200, false, files, recorded⟩

/-- Embeds the range-header parsing of `handle_recording_play`
(server.py:1016-1023): strip `bytes=`, split on the dash, empty start means 0
and empty end means `file_size - 1`; `none` models any exception in that
block (caught at server.py:1036 and answered with the full file). -/
def parse_range (header : String) (file_size : Nat) : Option (Int × Int) :=
  let v := py_replace header "bytes=" ""
  if v.data.contains '-' then
    match py_split v '-' with
    | [a, b] =>
      match (if a = "" then some 0 else py_int a),
            (if b = "" then some ((file_size : Int) - 1) else py_int b) with
      | some s, some e => some (s, e)
      | _, _ => none
    | _ => none
  else
    (py_int v).map (fun s => (s, (file_size : Int) - 1))

/-- Bytes returned by `f.seek(start); f.read(n)` on a file of `size` bytes
(`n < 0` reads everything after `start`, as in Python). -/
def file_read_bytes (size start : Nat) (n : Int) : Nat :=
  if n < 0 then size - start else min n.toNat (size - start)

/-- Response of `handle_recording_play`: status, the `Content-Range` header
when sent, the declared `Content-Length`, and how many body bytes are
actually written. -/
structure PlayResponse where
  status : Nat
  contentRange : Option String
  declaredLength : Option Int
  bodyBytes : Nat
deriving DecidableEq, Repr

/-- Embeds `handle_recording_play` (server.py:991-1064): validates the
filename, then serves the file, honouring a single `Range: bytes=a-b` header
with a 206 whose `Content-Range` and `Content-Length` use the parsed bounds
unclamped; any exception while handling the range falls back to a 200 with
the whole file. -/
def handle_recording_play (file : Option String) (files : List (String × Nat))
    (rangeHeader : Option String) : PlayResponse :=
  match file with
  | none => ⟨400, none, none, 0⟩
  | some filename =>
    if !valid_recording_filename filename then
      ⟨400, none, none, 0⟩
    else
      match alookup filename files with
      | none => ⟨404, none, none, 0⟩
      | some file_size =>
        match rangeHeader with
        | none => ⟨200, none, some (file_size : Int), file_size⟩
        | some h =>
          match parse_range h file_size with
          | none => ⟨200, none, some (file_size : Int), file_size⟩
          | some (s, e) =>
            if s < 0 then
              ⟨200, none, some (file_size : Int), file_size⟩
            else
              let content_length : Int := e - s + 1
              ⟨206,
               some ("bytes " ++ toString s ++ "-" ++ toString e ++ "/" ++ toString file_size),
               some content_length,
               file_read_bytes file_size s.toNat content_length⟩

/-- The sanitization in `handle_recording_start` (server.py:712):
`channel.replace('/', '_').replace('\\', '_')[:30]`. -/
def sanitize_channel (channel : String) : String :=
  py_slice (py_replace_char (py_replace_char channel '/' '_') '\\' '_') 30

/-- The filename computed at server.py:711-713:
`f"rec_{int(time.time())}_{safe_channel}.ts"`. -/
def recording_filename (now : Nat) (channel : String) : String :=
  "rec_" ++ toString now ++ "_" ++ sanitize_channel channel ++ ".ts"

/-- Result of `handle_recording_start`: status, `success`, the `recordingId`
of the JSON body, and `ACTIVE_RECORDINGS` after the handler returns. -/
structure StartResult where
  status : Nat
  success : Bool
  recordingId : Option String
  active : List (String × ActiveInfo)
deriving DecidableEq, Repr

/-- Embeds `handle_recording_start` (server.py:693-816): rejects an empty
url with 400, otherwise computes the filename, starts the `record_stream`
background thread and immediately answers 200 with the filename as
`recordingId`. No statement in the handler (or in `record_stream`) ever
inserts into `ACTIVE_RECORDINGS`, so the registry is passed through
unchanged; only the cleanup code at server.py:789-798 deletes from it. -/
def handle_recording_start (now : Nat) (channel url : String)
    (active : List (String × ActiveInfo)) : StartResult :=
  if url = "" then ⟨400, false, none, active⟩
  else ⟨200, true, some (recording_filename now channel), active⟩

/-- Embeds the catalog-update loop of `handle_recording_stop`
(server.py:833-838): walk `RECORDED_FILES` in insertion order, and at the
first entry whose channel matches, overwrite its duration when the
client-reported duration is positive; then stop (the loop breaks). -/
def update_catalog_durations (channel : String) (client_duration : Int) :
    List (String × RecInfo) → List (String × RecInfo)
  | [] => []
  | (fn, info) :: rest =>
    if info.channel = channel then
      (if client_duration > 0 then (fn, { info with duration := client_duration }) :: rest
       else (fn, info) :: rest)
    else
      (fn, info) :: update_catalog_durations channel client_duration rest

/-- Embeds `handle_recording_stop` (server.py:818-881): applies the catalog
duration update, then tries to terminate an active recording matching the
channel (modelled by the `stopped` flag; process termination itself is an
external effect), and always answers `{'success': True}` with 200 whether or
not anything matched. -/
def handle_recording_stop (channel : String) (duration : Option Int)
    (recorded : List (String × RecInfo)) (active : List (String × ActiveInfo)) :
    Nat × Bool × List (String × RecInfo) × Bool :=
  let client_duration := duration.getD 0
  let recorded := update_catalog_durations channel client_duration recorded
  let stopped := active.any (fun kv => kv.2.channel == channel)
  (200, true, recorded, stopped)

/-!
Codec probe (`handle_stream_transcode`, server.py:476-516). The outcome of
the `ffprobe` subprocess run and the JSON decoding of its stdout are
modelled by small inductives; the handler consumes them exactly as the
source's branch structure does.
-/

/-- Outcome of `json.loads(result.stdout)` and the `streams` inspection:
undecodable output, a decodable object without a non-empty `streams` list,
or a first stream with an optional `codec_name` field. -/
inductive ProbeJson where
  | invalid : ProbeJson
  | noStreams : ProbeJson
  | streams (codec_name : Option String) : ProbeJson
deriving DecidableEq, Repr

/-- Outcome of the `subprocess.run` of ffprobe: `subprocess.TimeoutExpired`,
any other exception, or completion with a return code and stdout. -/
inductive ProbeResult where
  | timeout : ProbeResult
  | excepted : ProbeResult
  | completed (returncode : Int) (output : ProbeJson) : ProbeResult
deriving DecidableEq, Repr

/-- Embeds server.py:476-508: `video_codec` starts as `'h264'` and
`needs_video_transcode` as `False`; they change only when the probe exits 0,
its stdout decodes, and a first stream entry exists — then the codec is the
lowercased `codec_name` (default `'h264'`) and a transcode is needed exactly
for `'hevc'`. -/
def probe_video_codec (r : ProbeResult) : String × Bool :=
  match r with
  | .completed rc out =>
    if rc = 0 then
      match out with
      | .invalid => ("h264", false)
      | .noStreams => ("h264", false)
      | .streams codec? =>
        let video_codec := py_lower (codec?.getD "h264")
        (video_codec, video_codec == "hevc")
    else ("h264", false)
  | _ => ("h264", false)

/-- The two ffmpeg command shapes built at server.py:510-555. -/
inductive TranscodePlan where
  | videoCopy : TranscodePlan
  | videoTranscode : TranscodePlan
deriving DecidableEq, Repr

/-- Embeds the plan selection at server.py:514-555: the video-transcode
command is built exactly when `needs_video_transcode` is set. -/
def select_transcode_plan (r : ProbeResult) : TranscodePlan :=
  if (probe_video_codec r).2 then .videoTranscode else .videoCopy

/-- The probe failure modes enumerated by the source's except/else branches:
timeout, any other exception, non-zero exit, undecodable stdout, or a decoded
object without a stream entry. -/
def probe_failed : ProbeResult → Prop
  | .timeout => True
  | .excepted => True
  | .completed rc out => rc ≠ 0 ∨ out = .invalid ∨ out = .noStreams

/-!
Composition harnesses used by the black-box properties: a client posting a
sequence of chat messages, and a client polling the party state repeatedly.
-/

/-- A client posting a sequence of `(time, text)` messages to one party:
the collected response statuses and the final store. -/
def run_send_messages (code username : String) (posts : List (Int × String))
    (st : ServerState) : List Nat × ServerState :=
  match posts with
  | [] => ([], st)
  | (t, text) :: rest =>
    let r := handle_send_message t code username text st
    let rr := run_send_messages code username rest r.2
    (r.1 :: rr.1, rr.2)

/-- A client requesting `/party/state` at each of a sequence of times:
the collected response statuses and the final store. -/
def poll_states (code : String) : List Int → ServerState → List Nat × ServerState
  | [], st => ([], st)
  | t :: ts, st =>
    let r := handle_party_state t code st
    let rr := poll_states code ts r.2
    (r.1 :: rr.1, rr.2)

/-- Each time in the list follows the previous point of activity by less
than `limit` seconds. -/
def gaps_within (limit : Int) : Int → List Int → Bool
  | _, [] => true
  | prev, t :: ts => decide (t - prev < limit) && gaps_within limit t ts

/-- The last `n` entries of a list, which is what `l[-n:]` keeps. -/
def lastN {α : Type} (n : Nat) (l : List α) : List α := l.drop (l.length - n)

/-!
Shared lemmas about the association-list primitives and `lastN`.
-/

theorem alookup_aset_self {α : Type} (k : String) (v : α) (l : List (String × α)) :
    alookup k (aset k v l) = some v := by
  induction l with
  | nil => simp [aset, alookup]
  | cons hd t ih =>
    obtain ⟨k', v'⟩ := hd
    by_cases hk : k' = k
    · simp [aset, hk, alookup]
    · simp [aset, hk, alookup, ih]

theorem alookup_eq_none_of_not_mem {α : Type} (k : String) (l : List (String × α))
    (h : k ∉ l.map Prod.fst) : alookup k l = none := by
  induction l with
  | nil => rfl
  | cons hd t ih =>
    simp only [List.map_cons, List.mem_cons, not_or] at h
    obtain ⟨k', v'⟩ := hd
    simp only [alookup]
    rw [if_neg (by simpa using fun e => h.1 e.symm)]
    exact ih h.2

theorem alookup_adel_self {α : Type} (k : String) (l : List (String × α))
    (h : (l.map Prod.fst).Nodup) : alookup k (adel k l) = none := by
  induction l with
  | nil => rfl
  | cons hd t ih =>
    obtain ⟨k', v'⟩ := hd
    simp only [List.map_cons, List.nodup_cons] at h
    by_cases hk : k' = k
    · subst hk
      simp only [adel, if_pos rfl]
      exact alookup_eq_none_of_not_mem _ _ h.1
    · simp only [adel, if_neg hk, alookup, if_neg hk]
      exact ih h.2

theorem lastN_of_length_le {α : Type} (n : Nat) (l : List α) (h : l.length ≤ n) :
    lastN n l = l := by
  simp [lastN, Nat.sub_eq_zero_of_le h]

theorem lastN_append_lastN {α : Type} (n : Nat) (xs ys : List α) :
    lastN n (lastN n xs ++ ys) = lastN n (xs ++ ys) := by
  by_cases hk : xs.length ≤ n
  · rw [lastN_of_length_le n xs hk]
  · have hn : n ≤ xs.length := Nat.le_of_lt (Nat.lt_of_not_le hk)
    set A := lastN n xs with hAdef
    have hAx : A = xs.drop (xs.length - n) := by rw [hAdef, lastN]
    have hlenA : A.length = n := by rw [hAx]; simp only [List.length_drop]; omega
    simp only [lastN, List.drop_append_eq_append_drop, List.length_append, hlenA]
    congr 1
    · rw [hAx, List.drop_drop]
      congr 1
      omega
    · congr 1
      omega

theorem lastN_append_of_le {α : Type} (n : Nat) (xs ys : List α) (h : n ≤ ys.length) :
    lastN n (xs ++ ys) = lastN n ys := by
  simp only [lastN, List.drop_append_eq_append_drop, List.length_append]
  rw [List.drop_eq_nil_of_le (by omega)]
  simp only [List.nil_append]
  congr 1
  omega

theorem get_party_live (now : Int) (code : String) (st : ServerState) (p : Party)
    (hp : alookup code st.parties = some p) (hlive : now - p.timestamp ≤ 3600) :
    get_party now code st = (some p, st) := by
  simp only [get_party, hp]
  rw [if_neg (by omega)]

theorem get_party_expired (now : Int) (code : String) (st : ServerState) (p : Party)
    (hp : alookup code st.parties = some p) (hexp : p.timestamp + 3600 < now) :
    get_party now code st = (none, ⟨adel code st.parties, adel code st.messages⟩) := by
  simp only [get_party, hp]
  rw [if_pos (by omega)]

theorem get_party_some (now : Int) (code : String) (st : ServerState) (p : Party)
    (st' : ServerState) (h : get_party now code st = (some p, st')) :
    st' = st ∧ alookup code st.parties = some p ∧ now - p.timestamp ≤ 3600 := by
  rcases hl : alookup code st.parties with _ | q
  · simp [get_party, hl] at h
  · simp only [get_party, hl] at h
    by_cases hc : now - q.timestamp > 3600
    · rw [if_pos hc] at h
      simp at h
    · rw [if_neg hc] at h
      injection h with h1 h2
      injection h1 with h1
      subst h1
      exact ⟨h2.symm, rfl, by omega⟩

theorem trim_eq_lastN {α : Type} (l : List α) (n : Nat) :
    (if l.length > n then l.drop (l.length - n) else l) = lastN n l := by
  by_cases h : l.length > n
  · rw [if_pos h]
    rfl
  · rw [if_neg h, lastN_of_length_le _ _ (by omega)]

theorem send_message_ok_shape (t : Int) (code username text : String) (st : ServerState)
    (h : (handle_send_message t code username text st).1 = 200) :
    ∃ party, alookup (py_upper code) st.parties = some party ∧
      (handle_send_message t code username text st).2 =
        { parties := aset (py_upper code) { party with timestamp := t } st.parties,
          messages := aset (py_upper code)
            (lastN MESSAGE_HISTORY_LIMIT
              ((alookup (py_upper code) st.messages).getD [] ++
                [⟨py_slice username 50, py_slice text 500, t⟩]))
            st.messages } := by
  rcases hgp : get_party t (py_upper code) st with ⟨op, st2⟩
  cases op with
  | none =>
    simp [handle_send_message, hgp] at h
  | some party =>
    obtain ⟨hse, hp, _⟩ := get_party_some _ _ _ _ _ hgp
    subst hse
    refine ⟨party, hp, ?_⟩
    by_cases hs : py_strip_truthy (py_slice text 500) = true
    · have htrim := trim_eq_lastN
        ((alookup (py_upper code) st2.messages).getD [] ++
          [ChatMessage.mk (py_slice username 50) (py_slice text 500) t]) MESSAGE_HISTORY_LIMIT
      simp at htrim
      simp [handle_send_message, hgp, hs, htrim]
    · simp [handle_send_message, hgp, hs] at h

theorem run_send_messages_accepted (code username : String) (posts : List (Int × String))
    (st : ServerState) (hne : posts ≠ [])
    (hall : ∀ s ∈ (run_send_messages code username posts st).1, s = 200) :
    alookup (py_upper code) (run_send_messages code username posts st).2.messages =
      some (lastN MESSAGE_HISTORY_LIMIT
        ((alookup (py_upper code) st.messages).getD [] ++
          posts.map (fun p => ChatMessage.mk (py_slice username 50) (py_slice p.2 500) p.1))) := by
  induction posts generalizing st with
  | nil => exact absurd rfl hne
  | cons head rest ih =>
    obtain ⟨t, text⟩ := head
    have h200 : (handle_send_message t code username text st).1 = 200 := by
      apply hall
      simp [run_send_messages]
    obtain ⟨party, hp, hst⟩ := send_message_ok_shape t code username text st h200
    have hcur : (alookup (py_upper code)
        (handle_send_message t code username text st).2.messages).getD [] =
        lastN MESSAGE_HISTORY_LIMIT
          ((alookup (py_upper code) st.messages).getD [] ++
            [⟨py_slice username 50, py_slice text 500, t⟩]) := by
      rw [hst]
      simp [alookup_aset_self]
    by_cases hr : rest = []
    · subst hr
      simp only [run_send_messages]
      rw [hst]
      simp [alookup_aset_self]
    · have hall2 : ∀ s ∈ (run_send_messages code username rest
          (handle_send_message t code username text st).2).1, s = 200 := by
        intro s hs
        apply hall
        simp only [run_send_messages, List.mem_cons]
        exact Or.inr hs
      have hrec := ih (handle_send_message t code username text st).2 hr hall2
      rw [hcur, lastN_append_lastN] at hrec
      simp only [run_send_messages]
      rw [hrec]
      simp [List.append_assoc]

theorem poll_states_all_ok (code : String) (ts : List Int) (st : ServerState) (party : Party)
    (hp : alookup (py_upper code) st.parties = some party)
    (hg : gaps_within 3600 party.timestamp ts = true) :
    ∀ s ∈ (poll_states code ts st).1, s = 200 := by
  induction ts generalizing st party with
  | nil =>
    simp [poll_states]
  | cons t rest ih =>
    simp only [gaps_within, Bool.and_eq_true, decide_eq_true_eq] at hg
    have hgp : get_party t (py_upper code) st = (some party, st) :=
      get_party_live _ _ _ _ hp (by omega)
    have hstep : handle_party_state t code st =
        (200, ⟨aset (py_upper code) { party with timestamp := t } st.parties, st.messages⟩) := by
      simp [handle_party_state, hgp]
    intro s hs
    simp only [poll_states, hstep, List.mem_cons] at hs
    rcases hs with hs | hs
    · exact hs
    · exact ih _ _ (alookup_aset_self (py_upper code) _ st.parties) hg.2 s hs

theorem update_catalog_first_match (channel : String) (d : Int) (hd : 0 < d)
    (pre post : List (String × RecInfo)) (fn : String) (info : RecInfo)
    (hpre : ∀ x ∈ pre, x.2.channel ≠ channel) (hch : info.channel = channel) :
    update_catalog_durations channel d (pre ++ (fn, info) :: post) =
      pre ++ (fn, { info with duration := d }) :: post := by
  induction pre with
  | nil =>
    simp [update_catalog_durations, hch, hd]
  | cons x xs ih =>
    have hx : x.2.channel ≠ channel := hpre x (List.mem_cons_self x xs)
    obtain ⟨xf, xi⟩ := x
    simp only [List.cons_append, update_catalog_durations, if_neg hx, List.cons.injEq, true_and]
    exact ih (fun y hy => hpre y (List.mem_cons_of_mem _ hy))

/-!
The claim theorems.
-/

/-- C1, counterexample: the claim says delete/play reject every filename not
matching `rec_<digits>_<text>.ts` with a 400 before touching the filesystem,
but `rec_abc.ts` — which has no digit run — passes the code's check:
delete answers 200 after consulting the directory, and play serves the file
in full when it exists. -/
theorem c1_pattern_counterexample :
    spec_rec_pattern "rec_abc.ts" = false ∧
    (handle_recording_delete "rec_abc.ts" [] []).status = 200 ∧
    handle_recording_play (some "rec_abc.ts") [("rec_abc.ts", 5)] none =
      ⟨200, none, some 5, 5⟩ := by
  decide

/-- C1, amended: delete and play reject any filename that does not both
start with `rec_` and end with `.ts`, answering 400 with the filesystem and
catalog untouched (the response does not depend on them); in particular
`../../etc/passwd` fails the check and `rec_123_News.ts` passes it. -/
theorem c1_filename_gate (fn : String)
    (hfn : valid_recording_filename fn = false) :
    (∀ files recorded, handle_recording_delete fn files recorded =
      ⟨400, false, files, recorded⟩) ∧
    (∀ files rangeHdr, handle_recording_play (some fn) files rangeHdr =
      ⟨400, none, none, 0⟩) ∧
    valid_recording_filename "../../etc/passwd" = false ∧
    valid_recording_filename "rec_123_News.ts" = true := by
  refine ⟨?_, ?_, by decide, by decide⟩
  · intro files recorded
    simp [handle_recording_delete, hfn]
  · intro files rangeHdr
    simp [handle_recording_play, hfn]

/-- C1, witness: the gate theorem applied to `../../etc/passwd` with a
non-empty directory. -/
theorem c1_filename_gate_witness :
    handle_recording_delete "../../etc/passwd" [("rec_1_a.ts", 5)] [] =
      ⟨400, false, [("rec_1_a.ts", 5)], []⟩ ∧
    handle_recording_play (some "../../etc/passwd") [("rec_1_a.ts", 5)] none =
      ⟨400, none, none, 0⟩ :=
  ⟨(c1_filename_gate "../../etc/passwd" (by decide)).1 _ _,
   (c1_filename_gate "../../etc/passwd" (by decide)).2.1 _ _⟩

/-- C2: `handle_recording_start` leaves `ACTIVE_RECORDINGS` unchanged on
every input — no `ActiveRecording` is ever registered, although the claim
(and the cleanup/stop code that reads the registry) expects one — while a
start with a non-empty url does answer 200 immediately with
`rec_<unixSeconds>_<sanitizedChannel>.ts` as the recording id. -/
theorem c2_start_registers_nothing (now : Nat) (channel url : String)
    (active : List (String × ActiveInfo)) :
    (handle_recording_start now channel url active).active = active ∧
    handle_recording_start 123 "News" "http://x" [] =
      ⟨200, true, some "rec_123_News.ts", []⟩ ∧
    handle_recording_start 456 "A/B channel with a very long name indeed" "http://x" [] =
      ⟨200, true, some "rec_456_A_B channel with a very long n.ts", []⟩ := by
  refine ⟨?_, by decide, by decide⟩
  by_cases h : url = "" <;> simp [handle_recording_start, h]

/-- C6: whenever the codec probe fails — timeout, any other exception,
non-zero exit, undecodable stdout, or no stream entry — the detected codec
is the default `h264` and the video-copy command is built, never the
video-transcode one; the model is total, reflecting that the handler
catches these failures instead of raising. -/
theorem c6_probe_failure_fallback (r : ProbeResult) (h : probe_failed r) :
    (probe_video_codec r).1 = "h264" ∧ select_transcode_plan r = TranscodePlan.videoCopy := by
  cases r with
  | timeout => exact ⟨rfl, rfl⟩
  | excepted => exact ⟨rfl, rfl⟩
  | completed rc out =>
    rcases h with hrc | hout | hout
    · simp [probe_video_codec, select_transcode_plan, hrc]
    · subst hout
      by_cases hrc : rc = 0 <;>
        simp [probe_video_codec, select_transcode_plan, hrc]
    · subst hout
      by_cases hrc : rc = 0 <;>
        simp [probe_video_codec, select_transcode_plan, hrc]

/-- C6, witness: the fallback theorem applied to a probe timeout. -/
theorem c6_probe_failure_fallback_witness :
    (probe_video_codec ProbeResult.timeout).1 = "h264" ∧
    select_transcode_plan ProbeResult.timeout = TranscodePlan.videoCopy :=
  c6_probe_failure_fallback ProbeResult.timeout trivial

/-- C7: `handle_recording_stop` answers 200 `{'success': True}` on every
input — in particular when no active recording matches the channel — and
when a positive client-reported duration is supplied, the first
completed-catalog entry whose channel matches gets its duration overwritten
with it (entries before it do not match, later entries are untouched). -/
theorem c7_stop_semantics (channel : String) (duration : Option Int)
    (recorded : List (String × RecInfo)) (active : List (String × ActiveInfo))
    (pre post : List (String × RecInfo)) (fn : String) (info : RecInfo) (d : Int)
    (hd : 0 < d) (hpre : ∀ x ∈ pre, x.2.channel ≠ channel)
    (hch : info.channel = channel) :
    ((handle_recording_stop channel duration recorded active).1 = 200 ∧
      (handle_recording_stop channel duration recorded active).2.1 = true) ∧
    (handle_recording_stop channel (some d) (pre ++ (fn, info) :: post) active).2.2.1 =
      pre ++ (fn, { info with duration := d }) :: post := by
  refine ⟨⟨rfl, rfl⟩, ?_⟩
  simp only [handle_recording_stop, Option.getD_some]
  exact update_catalog_first_match channel d hd pre post fn info hpre hch

/-- C7, witness: stopping channel `A` with client duration 42 while no
active recording exists still succeeds, and overwrites the duration of the
matching catalog entry that sits behind a non-matching one. -/
theorem c7_stop_semantics_witness :
    ((handle_recording_stop "A" (some 42)
        ([("rec_1_B.ts", ⟨"B", 10, 5, 1⟩)] ++ ("rec_2_A.ts", ⟨"A", 20, 7, 2⟩) :: []) []).1 =
        200 ∧
      (handle_recording_stop "A" (some 42)
        ([("rec_1_B.ts", ⟨"B", 10, 5, 1⟩)] ++ ("rec_2_A.ts", ⟨"A", 20, 7, 2⟩) :: []) []).2.1 =
        true) ∧
    (handle_recording_stop "A" (some 42)
        ([("rec_1_B.ts", ⟨"B", 10, 5, 1⟩)] ++ ("rec_2_A.ts", ⟨"A", 20, 7, 2⟩) :: []) []).2.2.1 =
      [("rec_1_B.ts", ⟨"B", 10, 5, 1⟩)] ++ ("rec_2_A.ts", ⟨"A", 20, 42, 2⟩) :: [] :=
  c7_stop_semantics "A" (some 42)
    ([("rec_1_B.ts", ⟨"B", 10, 5, 1⟩)] ++ ("rec_2_A.ts", ⟨"A", 20, 7, 2⟩) :: []) []
    [("rec_1_B.ts", ⟨"B", 10, 5, 1⟩)] [] "rec_2_A.ts" ⟨"A", 20, 7, 2⟩ 42
    (by decide) (by decide) (by decide)

/-- C3: when a read arrives strictly later than `lastActivity + 3600`, every
operation that resolves the code — join, getState, getMessages, update,
postMessage — answers 404 and evicts both the party and its chat log, so the
code resolves to nothing at any later time. -/
theorem c3_expired_read_evicts (st : ServerState) (code : String) (party : Party)
    (now since t2 : Int) (username text : String) (patch : PartyPatch)
    (hnp : (st.parties.map Prod.fst).Nodup) (hnm : (st.messages.map Prod.fst).Nodup)
    (hp : alookup (py_upper code) st.parties = some party)
    (hexp : party.timestamp + 3600 < now) :
    handle_party_join now code username st =
      (404, ⟨adel (py_upper code) st.parties, adel (py_upper code) st.messages⟩) ∧
    handle_party_state now code st =
      (404, ⟨adel (py_upper code) st.parties, adel (py_upper code) st.messages⟩) ∧
    handle_party_messages now since code st =
      (404, [], ⟨adel (py_upper code) st.parties, adel (py_upper code) st.messages⟩) ∧
    handle_party_update now code patch st =
      (404, ⟨adel (py_upper code) st.parties, adel (py_upper code) st.messages⟩) ∧
    handle_send_message now code username text st =
      (404, ⟨adel (py_upper code) st.parties, adel (py_upper code) st.messages⟩) ∧
    alookup (py_upper code) (adel (py_upper code) st.parties) = none ∧
    alookup (py_upper code) (adel (py_upper code) st.messages) = none ∧
    get_party t2 (py_upper code)
        ⟨adel (py_upper code) st.parties, adel (py_upper code) st.messages⟩ =
      (none, ⟨adel (py_upper code) st.parties, adel (py_upper code) st.messages⟩) := by
  have hgp : get_party now (py_upper code) st =
      (none, ⟨adel (py_upper code) st.parties, adel (py_upper code) st.messages⟩) :=
    get_party_expired _ _ _ _ hp (by omega)
  have h1 := alookup_adel_self (py_upper code) st.parties hnp
  have h2 := alookup_adel_self (py_upper code) st.messages hnm
  refine ⟨?_, ?_, ?_, ?_, ?_, h1, h2, ?_⟩
  · simp [handle_party_join, hgp]
  · simp [handle_party_state, hgp]
  · simp [handle_party_messages, hgp]
  · simp [handle_party_update, hgp]
  · simp [handle_send_message, hgp]
  · simp [get_party, h1]

/-- C3, witness: a one-party store read 4000 seconds after its last
activity: the state request answers 404 and evicts party and chat log. -/
theorem c3_expired_read_evicts_witness :
    handle_party_state 4000 "ABCDEF"
        ⟨[("ABCDEF", ⟨"h", [], "", false, 0, 0⟩)], [("ABCDEF", [])]⟩ =
      (404, ⟨adel (py_upper "ABCDEF") [("ABCDEF", ⟨"h", [], "", false, 0, 0⟩)],
        adel (py_upper "ABCDEF") [("ABCDEF", [])]⟩) ∧
    alookup (py_upper "ABCDEF")
        (adel (py_upper "ABCDEF") [("ABCDEF", (⟨"h", [], "", false, 0, 0⟩ : Party))]) =
      none :=
  ⟨(c3_expired_read_evicts ⟨[("ABCDEF", ⟨"h", [], "", false, 0, 0⟩)], [("ABCDEF", [])]⟩
      "ABCDEF" ⟨"h", [], "", false, 0, 0⟩ 4000 0 0 "u" "t" ⟨none, none, none⟩
      (by decide) (by decide) (by decide) (by decide)).2.1,
   (c3_expired_read_evicts ⟨[("ABCDEF", ⟨"h", [], "", false, 0, 0⟩)], [("ABCDEF", [])]⟩
      "ABCDEF" ⟨"h", [], "", false, 0, 0⟩ 4000 0 0 "u" "t" ⟨none, none, none⟩
      (by decide) (by decide) (by decide) (by decide)).2.2.2.2.2.1⟩

/-- C8: for a live session, `handle_party_update` overwrites exactly the
fields present in the patch and refreshes the activity timestamp; absent
fields keep their stored values — in particular a patch carrying only
`playing` leaves `channel` and `currentTime` untouched. -/
theorem c8_update_partiality (st : ServerState) (code : String) (party : Party)
    (now : Int) (patch : PartyPatch)
    (hp : alookup (py_upper code) st.parties = some party)
    (hlive : now - party.timestamp ≤ 3600) :
    handle_party_update now code patch st =
      (200, ⟨aset (py_upper code)
        { host := party.host, members := party.members,
          channel := patch.channel.getD party.channel,
          playing := patch.playing.getD party.playing,
          currentTime := patch.currentTime.getD party.currentTime,
          timestamp := now } st.parties, st.messages⟩) ∧
    alookup (py_upper code)
        (handle_party_update now code ⟨none, some true, none⟩ st).2.parties =
      some { party with playing := true, timestamp := now } := by
  have hgp : get_party now (py_upper code) st = (some party, st) :=
    get_party_live _ _ _ _ hp hlive
  constructor
  · rcases patch with ⟨c, p, ct⟩
    rcases c <;> rcases p <;> rcases ct <;> simp [handle_party_update, hgp]
  · simp [handle_party_update, hgp, alookup_aset_self]

/-- C8, witness: patching only `playing` on a live one-party store keeps the
stored channel and position. -/
theorem c8_update_partiality_witness :
    handle_party_update 10 "ABCDEF" ⟨none, some true, none⟩
        ⟨[("ABCDEF", ⟨"h", [], "News", false, 77, 0⟩)], [("ABCDEF", [])]⟩ =
      (200, ⟨aset (py_upper "ABCDEF")
        { host := "h", members := [], channel := (none : Option String).getD "News",
          playing := (some true).getD false,
          currentTime := (none : Option Int).getD 77, timestamp := 10 }
        [("ABCDEF", ⟨"h", [], "News", false, 77, 0⟩)], [("ABCDEF", [])]⟩) :=
  (c8_update_partiality ⟨[("ABCDEF", ⟨"h", [], "News", false, 77, 0⟩)], [("ABCDEF", [])]⟩
    "ABCDEF" ⟨"h", [], "News", false, 77, 0⟩ 10 ⟨none, some true, none⟩
    (by decide) (by decide)).1

/-- C9: a successful `getState` or `getMessages` on a live session rewrites
the stored session to the same record with only `timestamp` set to the
current time — host, members, channel, playing and currentTime survive, the
chat-log store is untouched, and the response of `getMessages` is a filter
of the stored list, not a mutation; consequently a session polled with
gaps under 3600 seconds answers 200 forever. -/
theorem c9_read_refreshes_only_timestamp (st : ServerState) (code : String) (party : Party)
    (now since : Int)
    (hp : alookup (py_upper code) st.parties = some party)
    (hlive : now - party.timestamp ≤ 3600) :
    handle_party_state now code st =
      (200, ⟨aset (py_upper code) { party with timestamp := now } st.parties,
        st.messages⟩) ∧
    handle_party_messages now since code st =
      (200, ((alookup (py_upper code) st.messages).getD []).filter
          (fun m => m.timestamp > since),
        ⟨aset (py_upper code) { party with timestamp := now } st.parties, st.messages⟩) ∧
    ∀ ts, gaps_within 3600 party.timestamp ts = true →
      ∀ s ∈ (poll_states code ts st).1, s = 200 := by
  have hgp : get_party now (py_upper code) st = (some party, st) :=
    get_party_live _ _ _ _ hp hlive
  refine ⟨by simp [handle_party_state, hgp], by simp [handle_party_messages, hgp], ?_⟩
  intro ts hg
  exact poll_states_all_ok code ts st party hp hg

/-- C9, witness: one read at time 10 on a live party refreshes only the
timestamp, and three polls spaced 3599 seconds apart all answer 200. -/
theorem c9_read_refreshes_only_timestamp_witness :
    handle_party_state 10 "ABCDEF"
        ⟨[("ABCDEF", ⟨"h", [⟨"h", "host", 0⟩], "News", true, 5, 0⟩)],
          [("ABCDEF", [⟨"h", "hello", 3⟩])]⟩ =
      (200, ⟨aset (py_upper "ABCDEF")
          { (⟨"h", [⟨"h", "host", 0⟩], "News", true, 5, 0⟩ : Party) with timestamp := 10 }
          [("ABCDEF", ⟨"h", [⟨"h", "host", 0⟩], "News", true, 5, 0⟩)],
        [("ABCDEF", [⟨"h", "hello", 3⟩])]⟩) ∧
    ∀ s ∈ (poll_states "ABCDEF" [3599, 7198, 10797]
        ⟨[("ABCDEF", ⟨"h", [⟨"h", "host", 0⟩], "News", true, 5, 0⟩)],
          [("ABCDEF", [⟨"h", "hello", 3⟩])]⟩).1, s = 200 :=
  ⟨(c9_read_refreshes_only_timestamp
      ⟨[("ABCDEF", ⟨"h", [⟨"h", "host", 0⟩], "News", true, 5, 0⟩)],
        [("ABCDEF", [⟨"h", "hello", 3⟩])]⟩
      "ABCDEF" ⟨"h", [⟨"h", "host", 0⟩], "News", true, 5, 0⟩ 10 0
      (by decide) (by decide)).1,
   (c9_read_refreshes_only_timestamp
      ⟨[("ABCDEF", ⟨"h", [⟨"h", "host", 0⟩], "News", true, 5, 0⟩)],
        [("ABCDEF", [⟨"h", "hello", 3⟩])]⟩
      "ABCDEF" ⟨"h", [⟨"h", "host", 0⟩], "News", true, 5, 0⟩ 10 0
      (by decide) (by decide)).2.2 [3599, 7198, 10797] (by decide)⟩

/-- C5: on a 100-byte recording, `Range: bytes=10-19` yields a 206 with
`Content-Range: bytes 10-19/100`, a declared length of 10 and exactly 10
body bytes; and any header whose parse fails (for this size) falls back to
a 200 with the whole file instead of an error. -/
theorem c5_range_serving (fn : String) (files : List (String × Nat))
    (hv : valid_recording_filename fn = true)
    (hfs : alookup fn files = some 100) :
    handle_recording_play (some fn) files (some "bytes=10-19") =
      ⟨206, some "bytes 10-19/100", some 10, 10⟩ ∧
    ∀ hdr, parse_range hdr 100 = none →
      handle_recording_play (some fn) files (some hdr) = ⟨200, none, some 100, 100⟩ := by
  constructor
  · have hp : parse_range "bytes=10-19" 100 = some ((10 : Int), (19 : Int)) := by decide
    simp [handle_recording_play, hv, hfs, hp, file_read_bytes]
    decide
  · intro hdr hnone
    simp [handle_recording_play, hv, hfs, hnone]

/-- C5, witness: the range property at the accepted example filename, with
`bytes=abc-def` as the malformed header. -/
theorem c5_range_serving_witness :
    handle_recording_play (some "rec_123_News.ts") [("rec_123_News.ts", 100)]
        (some "bytes=10-19") = ⟨206, some "bytes 10-19/100", some 10, 10⟩ ∧
    handle_recording_play (some "rec_123_News.ts") [("rec_123_News.ts", 100)]
        (some "bytes=abc-def") = ⟨200, none, some 100, 100⟩ :=
  ⟨(c5_range_serving "rec_123_News.ts" [("rec_123_News.ts", 100)]
      (by decide) (by decide)).1,
   (c5_range_serving "rec_123_News.ts" [("rec_123_News.ts", 100)]
      (by decide) (by decide)).2 "bytes=abc-def" (by decide)⟩

/-- C10: a parsed range `a-b` on a recording of size `S` with `a < S ≤ b`
still gets a 206 whose `Content-Range` is `bytes a-b/S` and whose declared
`Content-Length` is `b - a + 1` (the end is not clamped to `S - 1`), while
only `S - a` body bytes are written, strictly fewer than declared. -/
theorem c10_range_end_unclamped (fn hdr : String) (files : List (String × Nat))
    (S a b : Nat)
    (hv : valid_recording_filename fn = true)
    (hfs : alookup fn files = some S)
    (hparse : parse_range hdr S = some ((a : Int), (b : Int)))
    (haS : a < S) (hSb : S ≤ b) :
    handle_recording_play (some fn) files (some hdr) =
      ⟨206, some ("bytes " ++ toString (a : Int) ++ "-" ++ toString (b : Int) ++
          "/" ++ toString S),
        some ((b : Int) - (a : Int) + 1), S - a⟩ ∧
    S - a < b - a + 1 := by
  have hs0 : ¬((a : Int) < 0) := by omega
  constructor
  · simp only [handle_recording_play, hv, Bool.not_true, Bool.false_eq_true, if_false,
      hfs, hparse, hs0, if_false]
    have hread : file_read_bytes S (a : Int).toNat ((b : Int) - (a : Int) + 1) = S - a := by
      simp only [file_read_bytes]
      rw [if_neg (by omega)]
      omega
    rw [hread]
  · omega

/-- C10, witness: `bytes=10-199` on a 100-byte recording declares 190 bytes
in a `bytes 10-199/100` content range but writes only 90. -/
theorem c10_range_end_unclamped_witness :
    handle_recording_play (some "rec_123_News.ts") [("rec_123_News.ts", 100)]
        (some "bytes=10-199") =
      ⟨206, some ("bytes " ++ toString ((10 : Nat) : Int) ++ "-" ++
          toString ((199 : Nat) : Int) ++ "/" ++ toString (100 : Nat)),
        some (((199 : Nat) : Int) - ((10 : Nat) : Int) + 1), 100 - 10⟩ ∧
    100 - 10 < 199 - 10 + 1 :=
  c10_range_end_unclamped "rec_123_News.ts" "bytes=10-199" [("rec_123_News.ts", 100)]
    100 10 199 (by decide) (by decide) (by decide) (by decide) (by decide)

/-- C4: posting 150 messages to one party, all accepted (every response is
200), leaves a stored chat log that is exactly the last 100 of the posted
messages — truncated author/text and posting time — in their original
order, whatever the log held before. -/
theorem c4_message_cap (code username : String) (posts : List (Int × String))
    (st : ServerState) (hlen : posts.length = 150)
    (hall : ∀ s ∈ (run_send_messages code username posts st).1, s = 200) :
    alookup (py_upper code) (run_send_messages code username posts st).2.messages =
      some ((posts.map fun p =>
        ChatMessage.mk (py_slice username 50) (py_slice p.2 500) p.1).drop 50) ∧
    ((posts.map fun p =>
        ChatMessage.mk (py_slice username 50) (py_slice p.2 500) p.1).drop 50).length =
      100 := by
  have hne : posts ≠ [] := by
    intro h
    rw [h] at hlen
    simp at hlen
  have key := run_send_messages_accepted code username posts st hne hall
  have hmlen : (posts.map fun p =>
      ChatMessage.mk (py_slice username 50) (py_slice p.2 500) p.1).length = 150 := by
    rw [List.length_map, hlen]
  rw [lastN_append_of_le _ _ _ (by rw [hmlen]; decide)] at key
  have hlast : lastN MESSAGE_HISTORY_LIMIT (posts.map fun p =>
      ChatMessage.mk (py_slice username 50) (py_slice p.2 500) p.1) =
      (posts.map fun p =>
        ChatMessage.mk (py_slice username 50) (py_slice p.2 500) p.1).drop 50 := by
    rw [lastN, hmlen]
    rfl
  rw [hlast] at key
  refine ⟨key, ?_⟩
  rw [List.length_drop, hmlen]

set_option maxRecDepth 20000 in
/-- C4, witness: 150 posts of `hi` at time 0 to a fresh one-party store are
all accepted and leave exactly the last 100 of them, in order. -/
theorem c4_message_cap_witness :
    alookup (py_upper "ABCDEF")
        (run_send_messages "ABCDEF" "u" (List.replicate 150 ((0 : Int), "hi"))
          ⟨[("ABCDEF", ⟨"h", [], "", false, 0, 0⟩)], [("ABCDEF", [])]⟩).2.messages =
      some (((List.replicate 150 ((0 : Int), "hi")).map fun p =>
        ChatMessage.mk (py_slice "u" 50) (py_slice p.2 500) p.1).drop 50) ∧
    (((List.replicate 150 ((0 : Int), "hi")).map fun p =>
        ChatMessage.mk (py_slice "u" 50) (py_slice p.2 500) p.1).drop 50).length = 100 :=
  c4_message_cap "ABCDEF" "u" (List.replicate 150 ((0 : Int), "hi"))
    ⟨[("ABCDEF", ⟨"h", [], "", false, 0, 0⟩)], [("ABCDEF", [])]⟩
    (by simp) (by decide)
